import Mathlib

/-!
# Verification of `gotable` (synfinatic/gotable)

Shallow embedding of `gotable.go` and proofs about it.

Modelling conventions:
* Go `map[string]string` is modelled as an association list `StrMap`
  (`List (String × String)`); lookup of an absent key yields the zero
  value `""`, exactly as in Go, and insertion overwrites an existing key.
* A Go struct value implementing the `TableStruct` interface is modelled
  as an ordered field list (name, runtime value) plus its `GetHeader`
  method.  `reflect` field enumeration becomes iteration over that list;
  `FieldByName` on a declared field name is always valid in Go, so the
  unreachable `!fval.IsValid()` branch of `TableRow` has no counterpart.
* `fval.Int()` sign-extends every signed width to the mathematical value,
  and `fmt.Sprintf("%d", ·)` prints it in base 10, so signed values of
  every width are carried as `Int` (and unsigned ones as `Nat`) tagged
  with their width; stringification is `toString`, Lean's base-10
  rendering.
* String lengths are character counts; Go's byte-oriented `len` agrees on
  ASCII data.
* Output to `os.Stdout` is modelled explicitly: text-table generation
  returns the printed string, and CSV generation threads an `OutStream`
  whose writes may fail (a broken pipe), returning the list of CSV
  records actually written together with the `csv.Writer.Write` error.
* Go's `error` values are carried as their message `String`; a fallible
  function returns `Except String` or an `Option String` error slot,
  mirroring Go's multiple return values where the caller inspects them.
-/

/-- `TABLE_HEADER_TAG` from `gotable.go`. -/
def TABLE_HEADER_TAG : String := "header"

/-- `NOT_SUPPORTED` from `gotable.go`. -/
def NOT_SUPPORTED : String := "NO_SUPPORT"

/-- Width of a Go signed-integer kind (`reflect.Int` … `reflect.Int64`). -/
inductive IntWidth where
  | w | w8 | w16 | w32 | w64
deriving DecidableEq

/-- Width of a Go unsigned-integer kind (`reflect.Uint` … `reflect.Uint64`). -/
inductive UintWidth where
  | w | w8 | w16 | w32 | w64
deriving DecidableEq

/-- The runtime value of one struct field, classified the way the
`switch fval.Kind()` in `TableRow` classifies it: a string, a signed
integer of some width (carried as its mathematical value, as
`fval.Int()` does), an unsigned integer of some width, a bool, or a
value of any other, unsupported kind. -/
inductive FieldVal where
  | str (s : String)
  | int (width : IntWidth) (v : Int)
  | uint (width : UintWidth) (v : Nat)
  | boolean (b : Bool)
  | unsupported (kindName : String)

/-- Go `map[string]string`, as an association list. -/
abbrev StrMap := List (String × String)

/-- Go map read `m[k]`: the stored value, or the zero value `""` when the
key is absent. -/
def mapGet (m : StrMap) (k : String) : String :=
  match m.find? (fun p => p.1 == k) with
  | some p => p.2
  | none => ""

/-- Go map write `m[k] = v`: overwrite the existing entry or append a new
one. -/
def mapSet (m : StrMap) (k v : String) : StrMap :=
  match m with
  | [] => [(k, v)]
  | p :: rest => if p.1 == k then (k, v) :: rest else p :: mapSet rest k v

/-- The `switch fval.Kind()` body of `TableRow` (gotable.go lines 55–71):
stringify one field value.  Total: unsupported kinds yield the sentinel
`NOT_SUPPORTED`, never an error. -/
def stringifyVal : FieldVal → String
  | .str s => s
  | .int _ v => toString v
  | .uint _ v => toString v
  | .boolean b => if b then "true" else "false"
  | .unsupported _ => NOT_SUPPORTED

/-- A value implementing the Go `TableStruct` interface: its ordered
struct fields (as reflection enumerates them) and its `GetHeader`
method. -/
structure TableStruct where
  fields : List (String × FieldVal)
  getHeader : String → Except String String

/-- The loop body of `TableRow` (gotable.go lines 44–72), with the `row`
and `headers` maps as accumulators.  On a `GetHeader` failure the Go code
executes `return row, row, err`: the row accumulated so far is returned
in both result positions, with the error. -/
def tableRowGo (t : TableStruct) :
    List (String × FieldVal) → StrMap → StrMap → StrMap × StrMap × Option String
  | [], row, headers => (row, headers, none)
  | (name, val) :: rest, row, headers =>
    match t.getHeader name with
    | .error e => (row, row, some e)
    | .ok header =>
        tableRowGo t rest (mapSet row name (stringifyVal val)) (mapSet headers name header)

/-- `TableRow` (gotable.go lines 38–74): returns the stringified row, the
field-name-to-header map, and the error slot. -/
def TableRow (t : TableStruct) : StrMap × StrMap × Option String :=
  tableRowGo t t.fields [] []

/-- The reflection data `GetHeaderTag` consults: a struct type's name and
its fields with the value of their `header` tag (`Tag.Get` yields `""`
for an untagged field, so the tag value is a plain `String`). -/
structure ReflectType where
  name : String
  fieldTags : List (String × String)

/-- `GetHeaderTag` (gotable.go lines 179–186): look the field up on the
type; if absent, fail with the `Invalid field` error, otherwise return
the field's `header` tag value. -/
def GetHeaderTag (v : ReflectType) (fieldName : String) : Except String String :=
  match v.fieldTags.find? (fun p => p.1 == fieldName) with
  | some p => .ok p.2
  | none => .error ("Invalid field \x27" ++ fieldName ++ "\x27 in " ++ v.name)

/-- The aggregation loop of `GenerateTable` (gotable.go lines 80–87):
accumulate one row per record, keep the latest header map, and stop at
the first `TableRow` error. -/
def tableLoopGo : List TableStruct → List StrMap → StrMap → List StrMap × StrMap × Option String
  | [], acc, hdrs => (acc, hdrs, none)
  | t :: rest, acc, hdrs =>
    match TableRow t with
    | (row, h, none) => tableLoopGo rest (acc ++ [row]) h
    | (_, _, some e) => (acc, hdrs, some e)

/-- The aggregation performed by `GenerateTable` starting from the empty
table and header map. -/
def tableLoop (tables : List TableStruct) : List StrMap × StrMap × Option String :=
  tableLoopGo tables [] []

/-- The aggregation loop of `GenerateCSV` (gotable.go lines 96–102):
identical to the table loop except that each record's header map is
discarded. -/
def csvLoopGo : List TableStruct → List StrMap → List StrMap × Option String
  | [], acc => (acc, none)
  | t :: rest, acc =>
    match TableRow t with
    | (row, _, none) => csvLoopGo rest (acc ++ [row])
    | (_, _, some e) => (acc, some e)

/-- The aggregation performed by `GenerateCSV`. -/
def csvLoop (tables : List TableStruct) : List StrMap × Option String :=
  csvLoopGo tables []

/-- Column width computation of `generateTable` (gotable.go lines
112–127): start from the header's length and take the max with every
row's cell length for that field. -/
def colWidth (data : List StrMap) (fieldMap : StrMap) (field : String) : Nat :=
  data.foldl (fun w r => max w (mapGet r field).length) (mapGet fieldMap field).length

/-- Go's `fmt.Sprintf("%-Ns", s)`: left-justify, padding with spaces on
the right up to width `w`; a string at least `w` long is unchanged. -/
def padRight (s : String) (w : Nat) : String :=
  s ++ String.mk (List.replicate (w - s.length) ' ')

/-- The padded header cells, in field-selection order. -/
def headerCells (data : List StrMap) (fieldMap : StrMap) (fields : List String) : List String :=
  fields.map fun f => padRight (mapGet fieldMap f) (colWidth data fieldMap f)

/-- The padded cells of one data row, in field-selection order. -/
def rowCells (data : List StrMap) (fieldMap : StrMap) (fields : List String) (r : StrMap) :
    List String :=
  fields.map fun f => padRight (mapGet r f) (colWidth data fieldMap f)

/-- The header line printed by `generateTable` (gotable.go line 144):
the format string joins one `%-Ns` verb per column with `" | "` and ends
in a newline. -/
def headerLine (data : List StrMap) (fieldMap : StrMap) (fields : List String) : String :=
  String.intercalate " | " (headerCells data fieldMap fields) ++ "\n"

/-- One data line printed by `generateTable` (gotable.go line 153). -/
def rowLine (data : List StrMap) (fieldMap : StrMap) (fields : List String) (r : StrMap) :
    String :=
  String.intercalate " | " (rowCells data fieldMap fields r) ++ "\n"

/-- The `"="` underline of `generateTable` (gotable.go line 145):
`strings.Repeat("=", len(headerLine)-1)`. -/
def underline (data : List StrMap) (fieldMap : StrMap) (fields : List String) : String :=
  String.mk (List.replicate ((headerLine data fieldMap fields).length - 1) '=')

/-- `generateTable` (gotable.go lines 108–155), with the text printed to
stdout made explicit as the return value: header line, underline plus
newline, then one line per row. -/
def generateTable (data : List StrMap) (fieldMap : StrMap) (fields : List String) : String :=
  headerLine data fieldMap fields ++ underline data fieldMap fields ++ "\n"
    ++ String.join (data.map (rowLine data fieldMap fields))

/-- `GenerateTable` (gotable.go lines 77–91): aggregate all records,
returning the first introspection error before printing anything;
otherwise print the table (the printed text is the first component, the
returned `error` the second). -/
def GenerateTable (tables : List TableStruct) (fields : List String) : String × Option String :=
  match tableLoop tables with
  | (table, headers, none) => (generateTable table headers fields, none)
  | (_, _, some e) => ("", some e)

/-- Whether `encoding/csv` (default configuration: comma delimiter,
`UseCRLF = false`) quotes a field: a literal `\.`, any field containing
the comma, a double quote or a CR/LF, or a field starting with white
space. -/
def csvFieldNeedsQuotes (s : String) : Bool :=
  if s = "" then false
  else if s = "\\." then true
  else if s.data.any (fun c => c == ',' || c == '"' || c == '\r' || c == '\n') then true
  else match s.data with
       | [] => false
       | c :: _ => c == ' ' || c == '\t' || c == '\r' || c == '\n'

/-- Escaping inside a quoted CSV field: `"` doubles. -/
def csvEscape (s : String) : String :=
  String.join (s.data.map fun c => if c == '"' then "\"\"" else String.mk [c])

/-- One CSV field as `encoding/csv` writes it. -/
def csvField (s : String) : String :=
  if csvFieldNeedsQuotes s then "\"" ++ csvEscape s ++ "\"" else s

/-- One CSV record as `csv.Writer.Write` emits it: comma-joined fields
and a `\n` terminator. -/
def csvRecordLine (values : List String) : String :=
  String.intercalate "," (values.map csvField) ++ "\n"

/-- The output stream backing the CSV writer (`os.Stdout` in the Go
code).  `failAt = some n` means the n-th `Write` call (and every later
one) is rejected with error `errMsg` — e.g. a broken pipe; `none` means
every write succeeds. -/
structure OutStream where
  failAt : Option Nat
  errMsg : String

/-- Whether the `idx`-th write on the stream succeeds. -/
def writeOk (st : OutStream) (idx : Nat) : Bool :=
  match st.failAt with
  | none => true
  | some n => idx < n

/-- The write loop of `generateCSV` (gotable.go lines 167–175): emit the
selected fields of each row; on the first rejected write return that
error.  Records already written stay written (the deferred `Flush`
leaves them on the stream). -/
def generateCSVGo (fields : List String) (st : OutStream) :
    List StrMap → Nat → List String → List String × Option String
  | [], _, written => (written, none)
  | r :: rest, idx, written =>
    let values := fields.map fun f => mapGet r f
    if writeOk st idx then
      generateCSVGo fields st rest (idx + 1) (written ++ [csvRecordLine values])
    else
      (written, some st.errMsg)

/-- `generateCSV` (gotable.go lines 157–177): returns the records
actually written to the stream and the `Write` error, if any. -/
def generateCSV (data : List StrMap) (fields : List String) (st : OutStream) :
    List String × Option String :=
  generateCSVGo fields st data 0 []

/-- `GenerateCSV` (gotable.go lines 94–106): aggregate all records,
returning the first introspection error before writing anything.
Otherwise it calls `generateCSV(table, fields)` as a bare statement
(line 104) — the helper's returned write error is discarded — and
returns `nil`. -/
def GenerateCSV (tables : List TableStruct) (fields : List String) (st : OutStream) :
    List String × Option String :=
  match csvLoop tables with
  | (table, none) => ((generateCSV table fields st).1, none)
  | (_, some e) => ([], some e)

/-- `isOk` test on a field's header resolution, for stating where the
`TableRow` loop stops. -/
def isOkHeader (t : TableStruct) (f : String × FieldVal) : Bool :=
  match t.getHeader f.1 with
  | .ok _ => true
  | .error _ => false

/-- The fields `TableRow` fully processes before the first header
failure. -/
def okFields (t : TableStruct) (fs : List (String × FieldVal)) : List (String × FieldVal) :=
  fs.takeWhile (isOkHeader t)

/-- The first header-resolution error over a field list, if any. -/
def firstHeaderErr (t : TableStruct) : List (String × FieldVal) → Option String
  | [] => none
  | f :: rest =>
    match t.getHeader f.1 with
    | .error e => some e
    | .ok _ => firstHeaderErr t rest

/-- Folding the stringified fields into a row map, from a given
accumulator. -/
def rowFoldFrom (acc : StrMap) (fs : List (String × FieldVal)) : StrMap :=
  fs.foldl (fun r f => mapSet r f.1 (stringifyVal f.2)) acc

/-- Folding the resolved headers into a header map, from a given
accumulator (meaningful when every resolution succeeds). -/
def headersFoldFrom (t : TableStruct) (acc : StrMap) (fs : List (String × FieldVal)) : StrMap :=
  fs.foldl
    (fun h f => mapSet h f.1 (match t.getHeader f.1 with | .ok s => s | .error _ => ""))
    acc

/-- Reflection descriptor of the two-field `Person` struct from the
spec's concrete scenario, with `header` tags `Name` and `Age`. -/
def personType : ReflectType :=
  ⟨"Person", [("Name", "Name"), ("Age", "Age")]⟩

/-- The record `{Name:"Alice", Age:30}`. -/
def alice : TableStruct :=
  ⟨[("Name", .str "Alice"), ("Age", .int .w 30)], fun n => GetHeaderTag personType n⟩

/-- The record `{Name:"Bob", Age:5}`. -/
def bob : TableStruct :=
  ⟨[("Name", .str "Bob"), ("Age", .int .w 5)], fun n => GetHeaderTag personType n⟩

/-- A record whose second field's header resolution fails: its type
descriptor declares only field `A`, so `GetHeader "B"` errors. -/
def badRec : TableStruct :=
  ⟨[("A", .str "x"), ("B", .str "y")], fun n => GetHeaderTag ⟨"Bad", [("A", "HA")]⟩ n⟩

/-- A record with a header for `A` only, all of whose own lookups
succeed. -/
def okRecA : TableStruct :=
  ⟨[("A", .str "ok")], fun n => GetHeaderTag ⟨"OnlyA", [("A", "ColA")]⟩ n⟩

/-- A second one-field record with a different header for `A`. -/
def okRecA2 : TableStruct :=
  ⟨[("A", .str "two")], fun n => GetHeaderTag ⟨"OtherA", [("A", "Second")]⟩ n⟩

/-- A stream on which every write succeeds. -/
def plainStream : OutStream := ⟨none, ""⟩

/-- A stream rejecting every write (broken pipe from the start). -/
def brokenStream : OutStream := ⟨some 0, "write: broken pipe"⟩

/-- A stream accepting the first write and rejecting all later ones. -/
def laterBrokenStream : OutStream := ⟨some 1, "write: broken pipe"⟩

/-! ## Helper lemmas -/

theorem le_foldlMax {α : Type _} (g : α → Nat) (l : List α) (b : Nat) :
    b ≤ l.foldl (fun w x => max w (g x)) b := by
  induction l generalizing b with
  | nil => exact Nat.le_refl b
  | cons a l ih =>
      rw [List.foldl_cons]
      exact Nat.le_trans (Nat.le_max_left b (g a)) (ih (max b (g a)))

theorem mem_le_foldlMax {α : Type _} (g : α → Nat) (l : List α) (x : α) :
    ∀ b : Nat, x ∈ l → g x ≤ l.foldl (fun w y => max w (g y)) b := by
  induction l with
  | nil => intro b hx; cases hx
  | cons a l ih =>
      intro b hx
      rw [List.foldl_cons]
      rcases List.mem_cons.mp hx with h | h
      · subst h
        exact Nat.le_trans (Nat.le_max_right b (g x)) (le_foldlMax g l (max b (g x)))
      · exact ih (max b (g a)) h

theorem foldlMax_eq {α : Type _} (g : α → Nat) (l : List α) :
    ∀ b : Nat, l.foldl (fun w x => max w (g x)) b = max b ((l.map g).foldr max 0) := by
  induction l with
  | nil => intro b; simp
  | cons a l ih =>
      intro b
      rw [List.foldl_cons, List.map_cons, List.foldr_cons, ih (max b (g a)), Nat.max_assoc]

/-- `colWidth` computes exactly the spec's width formula:
`max(len(header), max(len(cell) over all rows))`. -/
theorem colWidth_spec (data : List StrMap) (fieldMap : StrMap) (f : String) :
    colWidth data fieldMap f
      = max (mapGet fieldMap f).length
          ((data.map fun r => (mapGet r f).length).foldr max 0) :=
  foldlMax_eq (fun r => (mapGet r f).length) data (mapGet fieldMap f).length

theorem header_le_colWidth (data : List StrMap) (fieldMap : StrMap) (f : String) :
    (mapGet fieldMap f).length ≤ colWidth data fieldMap f :=
  le_foldlMax (fun r => (mapGet r f).length) data (mapGet fieldMap f).length

theorem cell_le_colWidth (data : List StrMap) (fieldMap : StrMap) (f : String)
    (r : StrMap) (hr : r ∈ data) :
    (mapGet r f).length ≤ colWidth data fieldMap f :=
  mem_le_foldlMax (fun r2 => (mapGet r2 f).length) data r (mapGet fieldMap f).length hr

theorem length_mkStr (l : List Char) : (String.mk l).length = l.length := rfl

theorem padRight_length (s : String) (w : Nat) (h : s.length ≤ w) :
    (padRight s w).length = w := by
  simp only [padRight, String.length_append, length_mkStr, List.length_replicate]
  omega

theorem str_append_empty (s : String) : s ++ "" = s := by
  cases s with
  | mk d =>
      show String.mk (d ++ []) = String.mk d
      rw [List.append_nil]

/-- Characterisation of the `TableRow` loop from any accumulator state:
it either processes every field, or stops at the first header failure
having folded in exactly the fields before it, returning that partial
row in both map positions. -/
theorem tableRowGo_spec (t : TableStruct) (fs : List (String × FieldVal)) :
    ∀ row hdrs : StrMap,
      tableRowGo t fs row hdrs =
        match firstHeaderErr t fs with
        | some e =>
            (rowFoldFrom row (okFields t fs), rowFoldFrom row (okFields t fs), some e)
        | none => (rowFoldFrom row fs, headersFoldFrom t hdrs fs, none) := by
  induction fs with
  | nil => intro row hdrs; rfl
  | cons f rest ih =>
      intro row hdrs
      obtain ⟨name, val⟩ := f
      cases hg : t.getHeader name with
      | error e =>
          simp [tableRowGo, firstHeaderErr, okFields, isOkHeader, rowFoldFrom, hg]
      | ok hdr =>
          simp only [tableRowGo, firstHeaderErr, hg]
          rw [ih]
          have hok : okFields t ((name, val) :: rest) = (name, val) :: okFields t rest := by
            simp [okFields, isOkHeader, hg]
          cases hfe : firstHeaderErr t rest with
          | some e => simp [hok, rowFoldFrom]
          | none => simp [rowFoldFrom, headersFoldFrom, hg]

/-- `TableRow` either stringifies every field, or stops at the first
header failure and hands back the partial row twice with the error. -/
theorem tableRow_spec (t : TableStruct) :
    TableRow t =
      match firstHeaderErr t t.fields with
      | some e =>
          (rowFoldFrom [] (okFields t t.fields), rowFoldFrom [] (okFields t t.fields), some e)
      | none => (rowFoldFrom [] t.fields, headersFoldFrom t [] t.fields, none) :=
  tableRowGo_spec t t.fields [] []

/-- When every record introspects cleanly, the `GenerateTable` loop
collects one row per record and ends with the header map of the last
record processed (the fold keeps overwriting it). -/
theorem tableLoopGo_ok (ts : List TableStruct) :
    ∀ (acc : List StrMap) (hdrs : StrMap), (∀ t ∈ ts, (TableRow t).2.2 = none) →
      tableLoopGo ts acc hdrs
        = (acc ++ ts.map (fun t => (TableRow t).1),
           ts.foldl (fun _ t => (TableRow t).2.1) hdrs, none) := by
  induction ts with
  | nil => intro acc hdrs _; simp [tableLoopGo]
  | cons t rest ih =>
      intro acc hdrs h
      have ht : (TableRow t).2.2 = none := h t (List.mem_cons_self t rest)
      rcases hTR : TableRow t with ⟨row, hd, err⟩
      rw [hTR] at ht
      simp only at ht
      subst ht
      simp only [tableLoopGo, hTR]
      rw [ih (acc ++ [row]) hd (fun u hu => h u (List.mem_cons_of_mem t hu))]
      simp [hTR, List.append_assoc]

/-- If some record in the list fails introspection, the `GenerateTable`
loop ends with an error, and that error is the `TableRow` error of a
record in the list. -/
theorem tableLoopGo_err (ts : List TableStruct) :
    ∀ (acc : List StrMap) (hdrs : StrMap), (∃ t ∈ ts, ((TableRow t).2.2).isSome) →
      ∃ e, (∃ t ∈ ts, (TableRow t).2.2 = some e) ∧
        (tableLoopGo ts acc hdrs).2.2 = some e := by
  induction ts with
  | nil =>
      intro acc hdrs hx
      rcases hx with ⟨t, ht, _⟩
      cases ht
  | cons t rest ih =>
      intro acc hdrs hx
      rcases hTR : TableRow t with ⟨row, hd, err⟩
      cases err with
      | some e =>
          refine ⟨e, ⟨t, List.mem_cons_self t rest, by rw [hTR]⟩, ?_⟩
          simp [tableLoopGo, hTR]
      | none =>
          have hx2 : ∃ u ∈ rest, ((TableRow u).2.2).isSome := by
            rcases hx with ⟨u, hu, hus⟩
            rcases List.mem_cons.mp hu with rfl | hu2
            · rw [hTR] at hus; simp at hus
            · exact ⟨u, hu2, hus⟩
          rcases ih (acc ++ [row]) hd hx2 with ⟨e, ⟨u, hu, hue⟩, hres⟩
          refine ⟨e, ⟨u, List.mem_cons_of_mem t hu, hue⟩, ?_⟩
          simpa [tableLoopGo, hTR] using hres

/-- The `GenerateCSV` loop is the `GenerateTable` loop with the header
component dropped: rows and error agree exactly, from any accumulator
and header state. -/
theorem csvLoopGo_eq_tableLoopGo (ts : List TableStruct) :
    ∀ (acc : List StrMap) (hdrs : StrMap),
      csvLoopGo ts acc = ((tableLoopGo ts acc hdrs).1, (tableLoopGo ts acc hdrs).2.2) := by
  induction ts with
  | nil => intro acc hdrs; rfl
  | cons t rest ih =>
      intro acc hdrs
      rcases hTR : TableRow t with ⟨row, hd, err⟩
      cases err with
      | none =>
          simp only [csvLoopGo, tableLoopGo, hTR]
          exact ih (acc ++ [row]) hd
      | some e => simp [csvLoopGo, tableLoopGo, hTR]

theorem tableLoop_err (ts : List TableStruct)
    (h : ∃ t ∈ ts, ((TableRow t).2.2).isSome) :
    ∃ e, (∃ t ∈ ts, (TableRow t).2.2 = some e) ∧ (tableLoop ts).2.2 = some e :=
  tableLoopGo_err ts [] [] h

theorem foldl_const_last {α β : Type _} (f : α → β) :
    ∀ (l : List α) (hl : l ≠ []) (b : β), l.foldl (fun _ x => f x) b = f (l.getLast hl) := by
  intro l
  induction l with
  | nil => intro hl; exact absurd rfl hl
  | cons a l2 ih =>
      intro hl b
      cases l2 with
      | nil => rfl
      | cons a2 l3 =>
          rw [List.foldl_cons, ih (List.cons_ne_nil a2 l3) (f a),
            List.getLast_cons (List.cons_ne_nil a2 l3)]

/-! ## Claims -/

/-- Claim C3: stringification by `TableRow` (the `switch` extracted as
`stringifyVal`) is total and type-driven: a signed or unsigned integer
field of any width maps to its base-10 decimal string (`toString` on
`Int`/`Nat` is the base-10 rendering), a boolean field maps to exactly
`"true"` or `"false"`, a text field maps to itself unchanged, and a
field of any other runtime type maps to exactly the sentinel
`"NO_SUPPORT"`; being a total Lean function it produces no error. -/
theorem stringify_total_type_driven :
    (∀ (k : IntWidth) (v : Int), stringifyVal (.int k v) = toString v) ∧
    (∀ (k : UintWidth) (v : Nat), stringifyVal (.uint k v) = toString v) ∧
    (stringifyVal (.boolean true) = "true" ∧ stringifyVal (.boolean false) = "false") ∧
    (∀ s : String, stringifyVal (.str s) = s) ∧
    (∀ d : String, stringifyVal (.unsupported d) = "NO_SUPPORT") :=
  ⟨fun _ _ => rfl, fun _ _ => rfl, ⟨rfl, rfl⟩, fun _ => rfl, fun _ => rfl⟩

/-- Claim C4: in text mode, every header cell and every data cell of the
`i`-th selected column is the field's string left-justified
(`padRight`) to exactly
`max(len(header), max(len(cell) over all rows))` characters, and both
the header line and each row line join their cells with `" | "`. -/
theorem table_column_width_padding (data : List StrMap) (fieldMap : StrMap)
    (fields : List String) (i : Nat) (hi : i < fields.length) :
    ((headerCells data fieldMap fields).get ⟨i, by simpa [headerCells] using hi⟩).length
        = max (mapGet fieldMap (fields.get ⟨i, hi⟩)).length
            ((data.map fun r => (mapGet r (fields.get ⟨i, hi⟩)).length).foldr max 0) ∧
    (∀ r ∈ data,
      ((rowCells data fieldMap fields r).get ⟨i, by simpa [rowCells] using hi⟩).length
        = max (mapGet fieldMap (fields.get ⟨i, hi⟩)).length
            ((data.map fun r2 => (mapGet r2 (fields.get ⟨i, hi⟩)).length).foldr max 0)) ∧
    headerLine data fieldMap fields
        = String.intercalate " | " (headerCells data fieldMap fields) ++ "\n" ∧
    (∀ r, rowLine data fieldMap fields r
        = String.intercalate " | " (rowCells data fieldMap fields r) ++ "\n") := by
  refine ⟨?_, ?_, rfl, fun r => rfl⟩
  · simp only [headerCells, List.get_eq_getElem, List.getElem_map]
    rw [padRight_length _ _ (header_le_colWidth data fieldMap _), colWidth_spec]
  · intro r hr
    simp only [rowCells, List.get_eq_getElem, List.getElem_map]
    rw [padRight_length _ _ (cell_le_colWidth data fieldMap _ r hr), colWidth_spec]

/-- Witness for C4 at the spec's concrete scenario, column 0. -/
theorem table_column_width_padding_witness :
    ((headerCells [[("Name", "Alice"), ("Age", "30")], [("Name", "Bob"), ("Age", "5")]]
        [("Name", "Name"), ("Age", "Age")] ["Name", "Age"]).get
          ⟨0, by simp [headerCells]⟩).length
      = max (mapGet [("Name", "Name"), ("Age", "Age")] "Name").length
          (([[("Name", "Alice"), ("Age", "30")], [("Name", "Bob"), ("Age", "5")]].map
              fun r => (mapGet r "Name").length).foldr max 0) :=
  (table_column_width_padding
    [[("Name", "Alice"), ("Age", "30")], [("Name", "Bob"), ("Age", "5")]]
    [("Name", "Name"), ("Age", "Age")] ["Name", "Age"] 0 (by decide)).1

/-- Claim C5: the underline printed after the header line consists of
`"="` characters only, and its character count is the header line's
character count minus one (the trailing newline). -/
theorem underline_matches_header (data : List StrMap) (fieldMap : StrMap)
    (fields : List String) :
    (underline data fieldMap fields).length + 1 = (headerLine data fieldMap fields).length ∧
    ∀ c ∈ (underline data fieldMap fields).data, c = '=' := by
  constructor
  · rw [underline, length_mkStr, List.length_replicate]
    have h1 : 1 ≤ (headerLine data fieldMap fields).length := by
      rw [headerLine, String.length_append]
      have h2 : ("\n" : String).length = 1 := rfl
      omega
    omega
  · intro c hc
    rw [underline] at hc
    exact List.eq_of_mem_replicate hc

/-- Witness for C5 (the length conjunct) at the concrete scenario. -/
theorem underline_matches_header_witness :
    (underline [[("Name", "Alice"), ("Age", "30")]] [("Name", "Name"), ("Age", "Age")]
        ["Name", "Age"]).length + 1
      = (headerLine [[("Name", "Alice"), ("Age", "30")]] [("Name", "Name"), ("Age", "Age")]
          ["Name", "Age"]).length :=
  (underline_matches_header [[("Name", "Alice"), ("Age", "30")]]
    [("Name", "Name"), ("Age", "Age")] ["Name", "Age"]).1

/-- Claim C6: if the header-resolution capability fails for some field
of some record, both `GenerateTable` and `GenerateCSV` return an
introspection error of a record in the list and produce no output at
all: the printed table text is `""` and no CSV record reaches the
stream. -/
theorem generate_error_no_output (ts : List TableStruct) (fs : List String) (st : OutStream)
    (h : ∃ t ∈ ts, ((TableRow t).2.2).isSome) :
    ∃ e, (∃ t ∈ ts, (TableRow t).2.2 = some e) ∧
      GenerateTable ts fs = ("", some e) ∧ GenerateCSV ts fs st = ([], some e) := by
  rcases tableLoop_err ts h with ⟨e, hmem, hres⟩
  have hcsv : csvLoop ts = ((tableLoop ts).1, (tableLoop ts).2.2) :=
    csvLoopGo_eq_tableLoopGo ts [] []
  rcases hT : tableLoop ts with ⟨rows, hdrs, err⟩
  rw [hT] at hres
  simp only at hres
  subst hres
  rw [hT] at hcsv
  refine ⟨e, hmem, ?_, ?_⟩
  · simp [GenerateTable, hT]
  · simp [GenerateCSV, hcsv]

/-- Witness for C6: the second record of the list has a field `B` its
header resolver rejects; both entry points return that error with no
output. -/
theorem generate_error_no_output_witness :
    ∃ e, (∃ t ∈ [alice, badRec], (TableRow t).2.2 = some e) ∧
      GenerateTable [alice, badRec] ["Name"] = ("", some e) ∧
      GenerateCSV [alice, badRec] ["Name"] plainStream = ([], some e) :=
  generate_error_no_output [alice, badRec] ["Name"] plainStream
    ⟨badRec, by simp, by rfl⟩

/-- Claim C7: when every record introspects cleanly and the list is
non-empty, `GenerateTable` renders with the `HeaderMap` of the *last*
record (each record's header map overwrites the previous one in the
aggregation loop). -/
theorem generateTable_last_headers (ts : List TableStruct) (fs : List String)
    (hne : ts ≠ []) (hok : ∀ t ∈ ts, (TableRow t).2.2 = none) :
    GenerateTable ts fs
      = (generateTable (ts.map fun t => (TableRow t).1)
          ((TableRow (ts.getLast hne)).2.1) fs, none) := by
  have hT : tableLoop ts
      = (ts.map (fun t => (TableRow t).1), (TableRow (ts.getLast hne)).2.1, none) := by
    rw [tableLoop, tableLoopGo_ok ts [] [] hok,
      foldl_const_last (fun t => (TableRow t).2.1) ts hne]
    simp
  simp [GenerateTable, hT]

/-- Witness for C7: two one-field records whose `A` headers differ
(`ColA` then `Second`); the rendered header line uses `Second`, the
last record's header. -/
theorem generateTable_last_headers_witness :
    GenerateTable [okRecA, okRecA2] ["A"] = ("Second\n======\nok    \ntwo   \n", none) := by
  rw [generateTable_last_headers [okRecA, okRecA2] ["A"]
    (List.cons_ne_nil okRecA [okRecA2]) (by decide)]
  rfl

/-- Claim C8: the row-building phases of `GenerateCSV` and
`GenerateTable` agree exactly on every record list: same stringified
`Row` per record and the same error; the two modes differ only in
output framing downstream of these rows. -/
theorem csv_table_same_rows (ts : List TableStruct) :
    csvLoop ts = ((tableLoop ts).1, (tableLoop ts).2.2) :=
  csvLoopGo_eq_tableLoopGo ts [] []

/-- Claim C9: a field name selected at position `i` but absent from a
row's map is read back as the Go zero value `""` and rendered as an
empty cell padded with spaces to the full column width — rendering is a
total function, so no error is signalled. -/
theorem missing_field_empty_cell (data : List StrMap) (fieldMap : StrMap)
    (fields : List String) (r : StrMap) (g : String) (i : Nat) (hi : i < fields.length)
    (hg : fields.get ⟨i, hi⟩ = g) (hr : r.find? (fun p => p.1 == g) = none) :
    mapGet r g = "" ∧
    (rowCells data fieldMap fields r).get ⟨i, by simpa [rowCells] using hi⟩
      = String.mk (List.replicate (colWidth data fieldMap g) ' ') := by
  have hmg : mapGet r g = "" := by rw [mapGet, hr]
  refine ⟨hmg, ?_⟩
  have hg2 : fields[i] = g := hg
  simp only [rowCells, List.get_eq_getElem, List.getElem_map, hg2]
  rw [hmg]
  rfl

/-- Witness for C9: row `[("A","x")]` has no entry `B`; with header map
`[("B","BB")]` the `B` column is two spaces wide and the rendered cell
is exactly two spaces. -/
theorem missing_field_empty_cell_witness :
    mapGet [("A", "x")] "B" = "" ∧
    (rowCells [[("A", "x")]] [("B", "BB")] ["A", "B"] [("A", "x")]).get
        ⟨1, by simp [rowCells]⟩
      = String.mk (List.replicate (colWidth [[("A", "x")]] [("B", "BB")] "B") ' ') :=
  missing_field_empty_cell [[("A", "x")]] [("B", "BB")] ["A", "B"] [("A", "x")] "B" 1
    (by decide) (by decide) rfl

/-- Claim C10: on an empty record list with a non-empty field selection,
`GenerateTable` returns no error and still prints the header line and
the underline (every header resolves to `""` since the header map stays
empty, so every column width is 0) followed by no data rows. -/
theorem generateTable_empty_records (fields : List String) (h : fields ≠ []) :
    GenerateTable [] fields
      = (String.intercalate " | " (fields.map fun _ => "") ++ "\n"
          ++ String.mk (List.replicate
              ((String.intercalate " | " (fields.map fun _ => "") ++ "\n").length - 1) '=')
          ++ "\n",
         none) ∧
    ∀ f ∈ fields, mapGet ([] : StrMap) f = "" ∧ colWidth [] [] f = 0 := by
  constructor
  · show (headerLine [] [] fields ++ underline [] [] fields ++ "\n"
        ++ String.join (([] : List StrMap).map (rowLine [] [] fields)), none) = _
    rw [show String.join (([] : List StrMap).map (rowLine [] [] fields)) = "" from rfl,
      str_append_empty]
    rfl
  · intro f hf
    exact ⟨rfl, rfl⟩

/-- Witness for C10: two selected fields, no records: the output is one
`" | "` separator line, a 3-character underline, and nothing else. -/
theorem generateTable_empty_records_witness :
    GenerateTable [] ["A", "B"] = (" | \n===\n", none) := by
  rw [(generateTable_empty_records ["A", "B"] (by decide)).1]
  rfl

/-- Claim C1 (code bug in `GenerateCSV`): on a stream that accepts one
write and then breaks, the write loop `generateCSV` does return the
write error — and the record written before the failure stays written,
with no rollback — but `GenerateCSV` calls `generateCSV(table, fields)`
as a bare statement (gotable.go line 104), discarding that returned
error, and returns `nil`; so the write error never reaches
`GenerateCSV`'s caller, contrary to the claim.  On a stream broken from
the start, `GenerateCSV` likewise returns no error. -/
theorem generateCSV_write_error_dropped :
    generateCSV [(TableRow alice).1, (TableRow bob).1] ["Name", "Age"] laterBrokenStream
      = (["Alice,30\n"], some "write: broken pipe") ∧
    GenerateCSV [alice, bob] ["Name", "Age"] laterBrokenStream
      = (["Alice,30\n"], none) ∧
    GenerateCSV [alice, bob] ["Name", "Age"] brokenStream = ([], none) :=
  ⟨rfl, rfl, rfl⟩

/-- Claim C2 counterexample: `badRec`'s second field `B` fails header
resolution, and `TableRow` returns the *partial* row `[("A","x")]`
built from the first field — in both the `Row` and the `HeaderMap`
result positions — together with the error; so a partial row *is*
returned, contrary to the claim. -/
theorem tableRow_partial_row_counterexample :
    TableRow badRec
      = ([("A", "x")], [("A", "x")], some "Invalid field \x27B\x27 in Bad") ∧
    ([("A", "x")] : StrMap) ≠ [] :=
  ⟨rfl, by decide⟩

/-- Claim C2 (amended): if header resolution fails, `TableRow` aborts at
the first failing field and propagates that error, but it returns the
partial `Row` built from the fields before the failure — in both the
`Row` and the `HeaderMap` result positions (the partial header map
itself is discarded). -/
theorem tableRow_error_returns_partial (t : TableStruct) (e : String)
    (h : firstHeaderErr t t.fields = some e) :
    TableRow t
      = (rowFoldFrom [] (okFields t t.fields),
         rowFoldFrom [] (okFields t t.fields), some e) := by
  rw [tableRow_spec t, h]

/-- Witness for the amended C2 at `badRec`. -/
theorem tableRow_error_returns_partial_witness :
    firstHeaderErr badRec badRec.fields = some "Invalid field \x27B\x27 in Bad" ∧
    TableRow badRec
      = (rowFoldFrom [] (okFields badRec badRec.fields),
         rowFoldFrom [] (okFields badRec badRec.fields),
         some "Invalid field \x27B\x27 in Bad") :=
  ⟨rfl, tableRow_error_returns_partial badRec "Invalid field \x27B\x27 in Bad" rfl⟩
